import Mathlib

/-!
Verification of the deep_research_project research-orchestration engine.

Each definition in the `DeepResearch` namespace is a shallow embedding of a
function of the repository, translated from its Python source.  Text is
modelled as `List Char` (Python strings index and slice by character), Python
lists as `List`, dictionaries as association lists, and functions that can
raise as `Except`-valued functions.  Components whose implementation is not
part of the source tree (only their tests and callers are) are modelled from
the specification and carry a doc comment saying so.
-/

namespace DeepResearch

/-- Python strings are sequences of characters; slicing and length are
character based, so text is embedded as `List Char`. -/
abbrev Str := List Char

/-! ## Text chunking

`split_text_into_chunks` exists twice in the repository: the validating
version in `core/research_loop.py` (raises `ValueError` on bad parameters)
and the clamping version in `core/utils.py` (silently replaces an oversized
overlap by `chunk_size // 2`).  Both share the same scanning loop: append
`text[idx:idx+chunk_size]`, stop when the end of the text is reached,
advance `idx` by `chunk_size - chunk_overlap`. -/

/-- The scanning `while` loop shared by both chunking functions
(`research_loop.py` lines 45-63, `utils.py` lines 13-21): at offset `idx`
(here: on the suffix `l = text[idx:]`) append `l.take cs`; stop if the chunk
reached the end of the text; otherwise advance by `step`.  The `step = 0`
branch embeds the safety break of `research_loop.py` line 59 (unreachable
after parameter validation). -/
def chunksGo (cs step : Nat) (l : List Char) : List (List Char) :=
  if _h : cs < l.length then
    if step = 0 then [l.take cs]
    else l.take cs :: chunksGo cs step (l.drop step)
  else
    [l.take cs]
  termination_by l.length
  decreasing_by
    simp only [List.length_drop]
    omega

/-- Embeds `core/research_loop.py` lines 15-63, `split_text_into_chunks`: validating
version.  Raising `ValueError` is embedded as `Except.error`.  The
`chunk_overlap < 0` check of the source cannot fire in the `Nat` embedding.
The `text_len <= chunk_size` early return (line 42) is kept explicit. -/
def split_text_into_chunks (text : Str) (chunk_size chunk_overlap : Nat) :
    Except Str (List Str) :=
  if text = [] then .ok []
  else if chunk_size = 0 then .error (("Chunk size must be positive.").toList)
  else if chunk_size ≤ chunk_overlap then
    .error (("Chunk overlap must be less than chunk size.").toList)
  else if text.length ≤ chunk_size then .ok [text]
  else .ok (chunksGo chunk_size (chunk_size - chunk_overlap) text)

/-- Embeds `core/utils.py` lines 3-21, `split_text_into_chunks`: clamping version.
An overlap `>= chunk_size` is silently replaced by `chunk_size // 2`
(lines 8-11) and chunking proceeds; nothing is ever raised. -/
def utils_split_text_into_chunks (text : Str) (chunk_size chunk_overlap : Nat) :
    List Str :=
  if text = [] then []
  else if chunk_size = 0 then [text]
  else
    let ov := if chunk_size ≤ chunk_overlap then chunk_size / 2 else chunk_overlap
    chunksGo chunk_size (chunk_size - ov) text

/-- Index formula for the scanning loop: when the step is positive, the chunk
at index `i` is the window of `cs` characters starting at offset `i * step`. -/
theorem chunksGo_getElem (cs step : Nat) (hstep : 0 < step) (l : List Char)
    (i : Nat) (hi : i < (chunksGo cs step l).length) :
    (chunksGo cs step l)[i]? = some ((l.drop (i * step)).take cs) := by
  induction l using chunksGo.induct cs step generalizing i with
  | case1 l h hs =>
    omega
  | case2 l h hs ih =>
    rw [chunksGo, dif_pos h, if_neg hs]
    match i with
    | 0 => simp
    | j + 1 =>
      rw [chunksGo, dif_pos h, if_neg hs] at hi
      simp only [List.length_cons, Nat.add_lt_add_iff_right] at hi
      simp only [List.getElem?_cons_succ]
      rw [ih j hi, List.drop_drop]
      ring_nf
  | case3 l h =>
    rw [chunksGo, dif_neg h] at hi ⊢
    simp only [List.length_singleton] at hi
    interval_cases i
    simp

end DeepResearch

namespace DeepResearch

/-- C4: for every text and valid parameters (`0 < chunk_size`,
`overlap < chunk_size`), chunking succeeds and chunk `i` covers the character
range `[i*(chunk_size-overlap), i*(chunk_size-overlap)+chunk_size)`; empty
text yields no chunks, text no longer than `chunk_size` yields exactly one
chunk equal to the text, and `chunk_size=5, overlap=2` on `"abcdefghij"`
yields `["abcde","defgh","ghij"]`. -/
theorem split_chunks_covers_ranges (text : Str) (cs ov : Nat)
    (hcs : 0 < cs) (hov : ov < cs) :
    (∃ chunks, split_text_into_chunks text cs ov = .ok chunks ∧
      (∀ i, i < chunks.length →
        chunks[i]? = some ((text.drop (i * (cs - ov))).take cs)) ∧
      (text = [] → chunks = []) ∧
      (text.length ≤ cs → text ≠ [] → chunks = [text])) ∧
    split_text_into_chunks (("abcdefghij").toList) 5 2 =
      .ok [("abcde").toList, ("defgh").toList, ("ghij").toList] := by
  constructor
  · by_cases hempty : text = []
    · refine ⟨[], ?_, ?_, ?_, ?_⟩
      · simp [split_text_into_chunks, hempty]
      · intro i hi
        simp at hi
      · intro _
        rfl
      · intro _ hne
        exact absurd hempty hne
    · by_cases hshort : text.length ≤ cs
      · refine ⟨[text], ?_, ?_, ?_, ?_⟩
        · have h0 : ¬ cs = 0 := by omega
          have h1 : ¬ cs ≤ ov := by omega
          simp [split_text_into_chunks, hempty, hshort, h0, h1]
        · intro i hi
          simp only [List.length_singleton] at hi
          interval_cases i
          simp [List.take_of_length_le hshort]
        · intro h
          exact absurd h hempty
        · intro _ _
          rfl
      · refine ⟨chunksGo cs (cs - ov) text, ?_, ?_, ?_, ?_⟩
        · have h0 : ¬ cs = 0 := by omega
          have h1 : ¬ cs ≤ ov := by omega
          simp [split_text_into_chunks, hempty, hshort, h0, h1]
        · intro i hi
          exact chunksGo_getElem cs (cs - ov) (by omega) text i hi
        · intro h
          exact absurd h hempty
        · intro h
          exact absurd h hshort
  · simp [split_text_into_chunks, chunksGo]

/-- Concrete instance of the chunk-coverage theorem at
`text = "abcdefghij"`, `chunk_size = 5`, `overlap = 2`. -/
theorem split_chunks_covers_ranges_witness :
    (∃ chunks,
      split_text_into_chunks (("abcdefghij").toList) 5 2 = .ok chunks ∧
      (∀ i, i < chunks.length →
        chunks[i]? = some (((("abcdefghij").toList).drop (i * (5 - 2))).take 5)) ∧
      (("abcdefghij").toList = [] → chunks = []) ∧
      ((("abcdefghij").toList).length ≤ 5 → ("abcdefghij").toList ≠ [] →
        chunks = [("abcdefghij").toList])) ∧
    split_text_into_chunks (("abcdefghij").toList) 5 2 =
      .ok [("abcde").toList, ("defgh").toList, ("ghij").toList] :=
  split_chunks_covers_ranges (("abcdefghij").toList) 5 2 (by norm_num) (by norm_num)

/-- C5 counterexample: `core/utils.py`'s `split_text_into_chunks` called with
`chunk_overlap = chunk_size = 2` on the non-empty text `"abc"` does not raise;
it silently clamps the overlap to `chunk_size // 2 = 1` and returns a normal
chunk list (its return type has no error case at all). -/
theorem utils_split_no_error_on_big_overlap :
    utils_split_text_into_chunks (("abc").toList) 2 2 =
      [("ab").toList, ("bc").toList] := by
  simp [utils_split_text_into_chunks, chunksGo]

/-- C5 (amended): for every non-empty text and `chunk_overlap >= chunk_size`,
the `research_loop.py` version of `split_text_into_chunks` raises an error,
while the `core/utils.py` version (the one used by the executor) instead
silently clamps the overlap to `chunk_size // 2` and returns that chunk
list. -/
theorem split_overlap_ge_size_behavior (text : Str) (cs ov : Nat)
    (hne : text ≠ []) (hov : cs ≤ ov) :
    (∃ e, split_text_into_chunks text cs ov = .error e) ∧
    utils_split_text_into_chunks text cs ov =
      utils_split_text_into_chunks text cs (cs / 2) := by
  constructor
  · by_cases hcs : cs = 0
    · exact ⟨(("Chunk size must be positive.").toList), by
        simp [split_text_into_chunks, hne, hcs]⟩
    · exact ⟨(("Chunk overlap must be less than chunk size.").toList), by
        simp [split_text_into_chunks, hne, hcs, hov]⟩
  · by_cases hcs : cs = 0
    · simp [utils_split_text_into_chunks, hcs]
    · have h2 : ¬ cs ≤ cs / 2 := by omega
      simp [utils_split_text_into_chunks, hov, h2]

/-- Concrete instance of the amended overlap-validation behavior at
`text = "abc"`, `chunk_size = 2`, `overlap = 2`. -/
theorem split_overlap_ge_size_behavior_witness :
    (∃ e, split_text_into_chunks (("abc").toList) 2 2 = .error e) ∧
    utils_split_text_into_chunks (("abc").toList) 2 2 =
      utils_split_text_into_chunks (("abc").toList) 2 (2 / 2) :=
  split_overlap_ge_size_behavior (("abc").toList) 2 2 (by decide) (by norm_num)

/-! ## Python string helpers

Character-level embeddings of the Python string operations used by the
engine: `split`, `in`, `strip`, `upper`/`lower` (ASCII), `replace(pat, "")`
and slicing. -/

/-- Python `s.split(sep)` for a one-character separator: splits at every
occurrence and always returns at least one (possibly empty) piece. -/
def splitOnChar (sep : Char) : List Char → List (List Char)
  | [] => [[]]
  | c :: rest =>
    match splitOnChar sep rest with
    | [] => if c = sep then [[], []] else [[c]]
    | p :: ps => if c = sep then [] :: p :: ps else (c :: p) :: ps

/-- Python `needle in hay` for strings: some tail of `hay` starts with
`needle`. -/
def containsSub (needle hay : List Char) : Bool :=
  hay.tails.any (fun t => needle.isPrefixOf t)

/-- Python `s.upper()` (the engine only compares ASCII markers). -/
def upper (l : List Char) : List Char :=
  l.map Char.toUpper

/-- Python `s.lower()` (the engine only compares ASCII markers). -/
def lower (l : List Char) : List Char :=
  l.map Char.toLower

/-- Python `s.strip()`: remove leading and trailing whitespace. -/
def pyStrip (l : List Char) : List Char :=
  ((l.dropWhile Char.isWhitespace).reverse.dropWhile Char.isWhitespace).reverse

/-- Python `s.split(sep)[-1]`: the text after the last separator (the whole
string when the separator does not occur). -/
def lastSegment (sep : Char) (l : List Char) : List Char :=
  (splitOnChar sep l).getLastD []

/-- Fuel-driven worker for `removeAll`; the fuel starts at the length of the
text, which one character of progress per step can never exhaust. -/
def removeAllGo (pat : List Char) : Nat → List Char → List Char
  | 0, l => l
  | _ + 1, [] => []
  | fuel + 1, c :: rest =>
    if pat ≠ [] ∧ pat.isPrefixOf (c :: rest) then
      removeAllGo pat fuel ((c :: rest).drop pat.length)
    else
      c :: removeAllGo pat fuel rest

/-- Python `s.replace(pat, "")` for a non-empty pattern: scan left to right,
deleting each occurrence of `pat`. -/
def removeAll (pat l : List Char) : List Char :=
  removeAllGo pat l.length l

/-! ## Reflector: reflect-and-decide response parsing

`core/reflection.py` lines 90-140, `ResearchReflector.reflect_and_decide`:
the LLM response is split into lines; each line containing `EVALUATION:`
(case-insensitively) overwrites the evaluation (default `"CONCLUDE"`), and
each line containing `QUERY:` whose value is not the literal `None`
overwrites the next query (default `None`) after sanitization. -/

/-- The `"EVALUATION:"` marker scanned for by `reflection.py` line 130. -/
def evalMarker : List Char :=
  ("EVALUATION:").toList

/-- The `"QUERY:"` marker scanned for by `reflection.py` line 132. -/
def queryMarker : List Char :=
  ("QUERY:").toList

/-- The literal `"none"` against which the lower-cased query value is
compared (`reflection.py` line 134). -/
def noneLit : List Char :=
  ("none").toList

/-- The default evaluation `"CONCLUDE"` of `reflection.py` line 127. -/
def concludeLit : List Char :=
  ("CONCLUDE").toList

/-- Query sanitization of `reflection.py` lines 136-137: strip markdown
emphasis, backtick and double-quote characters, then truncate to 100
characters. -/
def sanitizeReflectQuery (q : List Char) : List Char :=
  let q1 := removeAll (("**").toList) q
  let q2 := removeAll (("__").toList) q1
  let q3 := removeAll (("`").toList) q2
  let q4 := removeAll (("\"").toList) q3
  if 100 < q4.length then q4.take 100 else q4

/-- One iteration of the `for line in lines` loop of `reflection.py`
lines 129-138, threading the `(evaluation, next_query)` pair. -/
def reflectLine (st : List Char × Option (List Char)) (line : List Char) :
    List Char × Option (List Char) :=
  let st1 :=
    if containsSub evalMarker (upper line) then
      (upper (pyStrip (lastSegment ':' line)), st.2)
    else st
  if containsSub queryMarker (upper line) then
    let q := pyStrip (lastSegment ':' line)
    if lower q ≠ noneLit then (st1.1, some (sanitizeReflectQuery q))
    else st1
  else st1

/-- Embeds `reflection.py` lines 125-140: parse the reflection response into the
`(evaluation, next_query)` decision, starting from the defaults
`("CONCLUDE", None)`. -/
def reflect_and_decide (response : List Char) : List Char × Option (List Char) :=
  (splitOnChar '\n' response).foldl reflectLine (concludeLit, none)

/-- A line without an `EVALUATION:` marker never changes the evaluation
component. -/
theorem reflectLine_fst_of_no_eval (st : List Char × Option (List Char))
    (line : List Char)
    (h : containsSub evalMarker (upper line) = false) :
    (reflectLine st line).1 = st.1 := by
  by_cases hq : containsSub queryMarker (upper line) = true
  · by_cases hn : lower (pyStrip (lastSegment ':' line)) = noneLit
    · simp [reflectLine, h, hq, hn]
    · simp [reflectLine, h, hq, hn]
  · simp only [Bool.not_eq_true] at hq
    simp [reflectLine, h, hq]

/-- A line whose `QUERY:` value (if any) is the literal `None` never changes
the query component. -/
theorem reflectLine_snd_of_none_query (st : List Char × Option (List Char))
    (line : List Char)
    (h : containsSub queryMarker (upper line) = true →
      lower (pyStrip (lastSegment ':' line)) = noneLit) :
    (reflectLine st line).2 = st.2 := by
  by_cases he : containsSub evalMarker (upper line) = true
  · by_cases hq : containsSub queryMarker (upper line) = true
    · simp [reflectLine, he, hq, h hq]
    · simp only [Bool.not_eq_true] at hq
      simp [reflectLine, he, hq]
  · simp only [Bool.not_eq_true] at he
    by_cases hq : containsSub queryMarker (upper line) = true
    · simp [reflectLine, he, hq, h hq]
    · simp only [Bool.not_eq_true] at hq
      simp [reflectLine, he, hq]

/-- Folding `reflectLine` over lines none of which mention `EVALUATION:`
preserves the evaluation. -/
theorem reflectFold_fst (lines : List (List Char))
    (st : List Char × Option (List Char))
    (h : ∀ line ∈ lines, containsSub evalMarker (upper line) = false) :
    (lines.foldl reflectLine st).1 = st.1 := by
  induction lines generalizing st with
  | nil => rfl
  | cons line rest ih =>
    rw [List.foldl_cons]
    rw [ih _ (fun l hl => h l (List.mem_cons_of_mem _ hl))]
    exact reflectLine_fst_of_no_eval st line (h line (List.mem_cons_self _ _))

/-- Folding `reflectLine` over lines all of whose `QUERY:` values are the
literal `None` preserves the query. -/
theorem reflectFold_snd (lines : List (List Char))
    (st : List Char × Option (List Char))
    (h : ∀ line ∈ lines, containsSub queryMarker (upper line) = true →
      lower (pyStrip (lastSegment ':' line)) = noneLit) :
    (lines.foldl reflectLine st).2 = st.2 := by
  induction lines generalizing st with
  | nil => rfl
  | cons line rest ih =>
    rw [List.foldl_cons]
    rw [ih _ (fun l hl hq => h l (List.mem_cons_of_mem _ hl) hq)]
    exact reflectLine_snd_of_none_query st line (h line (List.mem_cons_self _ _))

/-- C6 counterexample: a response with no `EVALUATION:` line but a usable
`QUERY:` line yields `("CONCLUDE", some query)`, not a `None` query; and the
literal query value `None` leaves the query `None` but the decision is
whatever the `EVALUATION:` line says — here `CONTINUE`, not `CONCLUDE`. -/
theorem reflect_missing_eval_counterexample :
    reflect_and_decide (("QUERY: deeper dive").toList) =
      (("CONCLUDE").toList, some (("deeper dive").toList)) ∧
    reflect_and_decide (("EVALUATION: CONTINUE\nQUERY: None").toList) =
      (("CONTINUE").toList, none) := by
  constructor
  · show (splitOnChar '\n' _).foldl reflectLine (concludeLit, none) = _
    decide
  · show (splitOnChar '\n' _).foldl reflectLine (concludeLit, none) = _
    decide

/-- C6 (amended): a response with no line mentioning `EVALUATION:` yields the
default decision `CONCLUDE` (never `CONTINUE`); the next query is `None`
whenever every `QUERY:` line (if any) carries the literal value `None` — in
particular when there is no `QUERY:` line at all.  (A usable `QUERY:` value
still sets the next query even without an evaluation line, and the literal
`None` query leaves the decision to the `EVALUATION:` line.) -/
theorem reflect_parse_defaults (response : List Char) :
    ((∀ line ∈ splitOnChar '\n' response,
        containsSub evalMarker (upper line) = false) →
      (reflect_and_decide response).1 = concludeLit) ∧
    ((∀ line ∈ splitOnChar '\n' response,
        containsSub queryMarker (upper line) = true →
          lower (pyStrip (lastSegment ':' line)) = noneLit) →
      (reflect_and_decide response).2 = none) := by
  constructor
  · intro h
    exact reflectFold_fst _ _ h
  · intro h
    exact reflectFold_snd _ _ h

/-- Concrete instance of the reflection parse defaults on a response with
neither marker line. -/
theorem reflect_parse_defaults_witness :
    (reflect_and_decide (("no markers here at all").toList)).1 = concludeLit ∧
    (reflect_and_decide (("no markers here at all").toList)).2 = none :=
  ⟨(reflect_parse_defaults (("no markers here at all").toList)).1 (by decide),
   (reflect_parse_defaults (("no markers here at all").toList)).2 (by decide)⟩

/-! ## Reflector: knowledge-graph merge

`core/reflection.py` lines 40-88, `ResearchReflector._merge_knowledge_graph`:
newly extracted nodes are merged into the state's node list keyed by `id`,
edges keyed by `(source, target, label)`.  Python keeps a dictionary index
onto the very dict objects stored in the list and mutates them in place;
under the unique-key invariant (which the merge itself maintains) this is
exactly "update the entry with the matching key", embedded here as a map
over the matching entries. -/

/-- A knowledge-graph node as stored in `state.knowledge_graph_nodes` and as
extracted by the LLM.  Modelled from the spec for the `properties` and
`source_urls` fields: the copy of `state.py` in the tree declares `KGNode`
with only `id`/`label`/`type`, while `reflection.py` lines 50-54 dereference
`new_node.properties` and `new_node.source_urls` and the spec's data model
gives nodes a properties map (with a `mention_count` counter) and a set of
source URLs. -/
structure KGNodeRec where
  id : Str
  label : Str
  type : Str
  properties : List (Str × Str)
  source_urls : List Str
deriving DecidableEq

/-- A knowledge-graph edge with identity key `(source, target, label)`;
`properties` and `source_urls` modelled from the spec as for `KGNodeRec`. -/
structure KGEdgeRec where
  source : Str
  target : Str
  label : Str
  properties : List (Str × Str)
  source_urls : List Str
deriving DecidableEq

/-- The structured extraction result (`KnowledgeGraphModel`): a batch of
nodes and edges. -/
structure KnowledgeGraphModelRec where
  nodes : List KGNodeRec
  edges : List KGEdgeRec
deriving DecidableEq

/-- Python `d[k] = v`: overwrite the value at an existing key in place, else
append the pair. -/
def dictInsert (d : List (Str × Str)) (k v : Str) : List (Str × Str) :=
  if d.any (fun p => p.1 = k) then
    d.map (fun p => if p.1 = k then (k, v) else p)
  else d ++ [(k, v)]

/-- Python `d.update(new)`: upsert every pair of `new` in order. -/
def dictUpdate (d new : List (Str × Str)) : List (Str × Str) :=
  new.foldl (fun acc p => dictInsert acc p.1 p.2) d

/-- Python `d.get(k)`. -/
def dictGet (d : List (Str × Str)) (k : Str) : Option Str :=
  (d.find? (fun p => p.1 = k)).map (fun p => p.2)

/-- Python `k in d` for our association-list dictionaries. -/
def isKey (k : Str) (d : List (Str × Str)) : Bool :=
  d.any (fun p => p.1 = k)

/-- Python `list(set(old) | set(new))` on URL lists.  A Python set iterates
in unspecified order, so the union is embedded order-normalized (first
occurrences of `old ++ new`); theorems about it are membership-level. -/
def urlUnion (old new : List Str) : List Str :=
  (old ++ new).dedup

/-- Digit-string to number (helper for Python `int(s)`). -/
def parseDigits (l : List Char) : Option Nat :=
  if l = [] then none
  else
    l.foldl
      (fun acc c =>
        acc.bind (fun n => if c.isDigit then some (n * 10 + (c.toNat - 48)) else none))
      (some 0)

/-- Python `int(s)` restricted to the optionally signed decimal strings the
merge ever stores; any other shape is the `ValueError` branch (`none`). -/
def parseInt (s : Str) : Option Int :=
  match s with
  | '-' :: rest => (parseDigits rest).map (fun n => -(n : Int))
  | l => (parseDigits l).map (fun n => (n : Int))

/-- The `"mention_count"` key of `reflection.py` lines 60-63. -/
def mentionKey : Str :=
  ("mention_count").toList

/-- Embeds `reflection.py` lines 57-63: read the current `mention_count` (missing
key defaults to the integer 1) and store its successor as a string;
an unparseable value falls back to the literal `"2"`. -/
def bumpMention (props : List (Str × Str)) : List (Str × Str) :=
  match dictGet props mentionKey with
  | none => dictInsert props mentionKey (("2").toList)
  | some s =>
    match parseInt s with
    | some n => dictInsert props mentionKey ((toString (n + 1)).toList)
    | none => dictInsert props mentionKey (("2").toList)

/-- Embeds `reflection.py` lines 49-63: merge a re-extracted node into the existing
node with the same id — union the properties (new keys win), union the
source URLs, then increment `mention_count`. -/
def mergeNodeInto (n new : KGNodeRec) : KGNodeRec :=
  { n with
    properties := bumpMention (dictUpdate n.properties new.properties),
    source_urls := urlUnion n.source_urls new.source_urls }

/-- Embeds `reflection.py` lines 65-67: a first-seen node enters the collection
with `mention_count` set to `"1"`. -/
def freshNode (new : KGNodeRec) : KGNodeRec :=
  { new with properties := dictInsert new.properties mentionKey (("1").toList) }

/-- Embeds `reflection.py` lines 78-84: merge a re-extracted edge into the existing
edge with the same `(source, target, label)` key. -/
def mergeEdgeInto (e new : KGEdgeRec) : KGEdgeRec :=
  { e with
    properties := dictUpdate e.properties new.properties,
    source_urls := urlUnion e.source_urls new.source_urls }

/-- The edge identity key of `reflection.py` lines 72 and 76. -/
def edgeKey (e : KGEdgeRec) : Str × Str × Str :=
  (e.source, e.target, e.label)

/-- The shared shape of both merge loops of `reflection.py` lines 47-68 and
75-88: if the key of the incoming item is already indexed, update the entry
carrying that key in place, otherwise append a freshly initialized entry
(and index it, so that a later item of the same batch sees it). -/
def keyedMergeStep {α κ : Type} [DecidableEq κ] (key : α → κ) (upd : α → α → α)
    (fresh : α → α) (xs : List α) (new : α) : List α :=
  if xs.any (fun x => key x = key new) then
    xs.map (fun x => if key x = key new then upd x new else x)
  else xs ++ [fresh new]

/-- Folding a whole extraction batch through `keyedMergeStep`. -/
def keyedMerge {α κ : Type} [DecidableEq κ] (key : α → κ) (upd : α → α → α)
    (fresh : α → α) (xs : List α) (batch : List α) : List α :=
  batch.foldl (keyedMergeStep key upd fresh) xs

/-- The node half of `_merge_knowledge_graph` (lines 43-68). -/
def mergeNodes (nodes : List KGNodeRec) (batch : List KGNodeRec) : List KGNodeRec :=
  keyedMerge (fun n => n.id) mergeNodeInto freshNode nodes batch

/-- The edge half of `_merge_knowledge_graph` (lines 70-88); a first-seen
edge is appended as its plain `model_dump`. -/
def mergeEdges (edges : List KGEdgeRec) (batch : List KGEdgeRec) : List KGEdgeRec :=
  keyedMerge edgeKey mergeEdgeInto (fun e => e) edges batch

/-- Embeds `reflection.py` lines 40-88, `_merge_knowledge_graph` as a function on
the two collections. -/
def merge_knowledge_graph (kg : KnowledgeGraphModelRec)
    (nodes : List KGNodeRec) (edges : List KGEdgeRec) :
    List KGNodeRec × List KGEdgeRec :=
  (mergeNodes nodes kg.nodes, mergeEdges edges kg.edges)

section KeyedMergeLemmas

variable {α κ : Type} [DecidableEq κ] (key : α → κ) (upd : α → α → α) (fresh : α → α)

/-- One merge step either leaves the key multiset unchanged (key already
known) or appends the new key (first sighting). -/
theorem keyedMergeStep_map_key
    (hupd : ∀ x y, key (upd x y) = key x) (hfresh : ∀ x, key (fresh x) = key x)
    (xs : List α) (new : α) :
    (keyedMergeStep key upd fresh xs new).map key =
      if key new ∈ xs.map key then xs.map key else xs.map key ++ [key new] := by
  unfold keyedMergeStep
  by_cases h : xs.any (fun x => key x = key new) = true
  · have hmem : key new ∈ xs.map key := by
      simp only [List.any_eq_true, decide_eq_true_eq] at h
      obtain ⟨x, hx, hk⟩ := h
      exact hk ▸ List.mem_map_of_mem key hx
    rw [if_pos h, if_pos hmem, List.map_map]
    refine List.map_congr_left ?_
    intro x _
    by_cases hk : key x = key new
    · simp [hk, hupd]
    · simp [hk]
  · have hmem : key new ∉ xs.map key := by
      simp only [List.any_eq_true, decide_eq_true_eq, not_exists] at h
      intro hc
      obtain ⟨x, hx, hk⟩ := List.mem_map.mp hc
      exact h x ⟨hx, hk⟩
    rw [if_neg h, if_neg hmem, List.map_append]
    simp [hfresh]

/-- Keys already in the collection survive a whole batch merge. -/
theorem keyedMerge_key_subset
    (hupd : ∀ x y, key (upd x y) = key x) (hfresh : ∀ x, key (fresh x) = key x)
    (xs : List α) (batch : List α) (k : κ) (hk : k ∈ xs.map key) :
    k ∈ (keyedMerge key upd fresh xs batch).map key := by
  induction batch generalizing xs with
  | nil => exact hk
  | cons b rest ih =>
    refine ih (keyedMergeStep key upd fresh xs b) ?_
    rw [keyedMergeStep_map_key key upd fresh hupd hfresh]
    by_cases hb : key b ∈ xs.map key
    · rwa [if_pos hb]
    · rw [if_neg hb]
      exact List.mem_append_left _ hk

/-- Every key of the batch is present after the merge. -/
theorem keyedMerge_key_mem
    (hupd : ∀ x y, key (upd x y) = key x) (hfresh : ∀ x, key (fresh x) = key x)
    (xs : List α) (batch : List α) (b : α) (hb : b ∈ batch) :
    key b ∈ (keyedMerge key upd fresh xs batch).map key := by
  induction batch generalizing xs with
  | nil => exact absurd hb (List.not_mem_nil b)
  | cons a rest ih =>
    rcases List.mem_cons.mp hb with hba | hbr
    · subst hba
      refine keyedMerge_key_subset key upd fresh hupd hfresh _ rest _ ?_
      rw [keyedMergeStep_map_key key upd fresh hupd hfresh]
      by_cases hk : key b ∈ xs.map key
      · rwa [if_pos hk]
      · rw [if_neg hk]
        exact List.mem_append_right _ (List.mem_singleton_self _)
    · exact ih _ hbr

/-- A batch merge preserves distinctness of the identity keys: no duplicate
node id or edge key is ever created. -/
theorem keyedMerge_nodup
    (hupd : ∀ x y, key (upd x y) = key x) (hfresh : ∀ x, key (fresh x) = key x)
    (xs : List α) (batch : List α) (hnd : (xs.map key).Nodup) :
    ((keyedMerge key upd fresh xs batch).map key).Nodup := by
  induction batch generalizing xs with
  | nil => exact hnd
  | cons b rest ih =>
    refine ih _ ?_
    rw [keyedMergeStep_map_key key upd fresh hupd hfresh]
    by_cases hb : key b ∈ xs.map key
    · rwa [if_pos hb]
    · rw [if_neg hb]
      exact List.Nodup.append hnd (List.nodup_singleton _)
        (List.disjoint_singleton.mpr hb)

/-- In a duplicate-free list, a present element is counted exactly once. -/
theorem countP_eq_one_of_nodup_mem (l : List κ) (a : κ)
    (hnd : l.Nodup) (ha : a ∈ l) :
    l.countP (fun x => x = a) = 1 := by
  induction l with
  | nil => cases ha
  | cons b rest ih =>
    rw [List.countP_cons]
    rcases List.mem_cons.mp ha with hba | har
    · subst hba
      have hnotmem : a ∉ rest := (List.nodup_cons.mp hnd).1
      have hz : rest.countP (fun x => x = a) = 0 := by
        rw [List.countP_eq_zero]
        intro x hx
        simp only [decide_eq_true_eq]
        intro hxa
        exact hnotmem (hxa ▸ hx)
      simp [hz]
    · have hba : ¬ b = a := by
        intro hba
        exact (List.nodup_cons.mp hnd).1 (hba ▸ har)
      rw [ih (List.nodup_cons.mp hnd).2 har]
      simp [hba]

/-- With distinct keys before the merge, a key occurring in the batch occurs
exactly once afterwards. -/
theorem keyedMerge_count_eq_one
    (hupd : ∀ x y, key (upd x y) = key x) (hfresh : ∀ x, key (fresh x) = key x)
    (xs : List α) (batch : List α) (hnd : (xs.map key).Nodup)
    (b : α) (hb : b ∈ batch) :
    ((keyedMerge key upd fresh xs batch).map key).countP (fun k' => k' = key b) = 1 :=
  countP_eq_one_of_nodup_mem _ _
    (keyedMerge_nodup key upd fresh hupd hfresh xs batch hnd)
    (keyedMerge_key_mem key upd fresh hupd hfresh xs batch b hb)

end KeyedMergeLemmas

/-- Key membership in terms of the key list of the dictionary. -/
theorem isKey_iff_mem_keys (d : List (Str × Str)) (k : Str) :
    isKey k d = true ↔ k ∈ d.map Prod.fst := by
  simp [isKey, List.any_eq_true, List.mem_map]

/-- Overwriting an existing key leaves the key list unchanged. -/
theorem keys_map_overwrite (d : List (Str × Str)) (k' v : Str) :
    (d.map (fun p => if p.1 = k' then (k', v) else p)).map Prod.fst =
      d.map Prod.fst := by
  rw [List.map_map]
  refine List.map_congr_left ?_
  intro p _
  by_cases hp : p.1 = k'
  · simp [hp]
  · simp [hp]

/-- Upserting key `k'` makes the key set exactly grow by `k'`. -/
theorem isKey_dictInsert (d : List (Str × Str)) (k k' v : Str) :
    isKey k (dictInsert d k' v) = true ↔ isKey k d = true ∨ k = k' := by
  unfold dictInsert
  by_cases h : d.any (fun p => p.1 = k') = true
  · rw [if_pos h, isKey_iff_mem_keys, keys_map_overwrite, ← isKey_iff_mem_keys]
    constructor
    · exact Or.inl
    · rintro (hd | hk)
      · exact hd
      · subst hk
        exact h
  · rw [if_neg h, isKey_iff_mem_keys, List.map_append]
    simp only [List.map_cons, List.map_nil, List.mem_append, List.mem_singleton]
    rw [← isKey_iff_mem_keys]

/-- The key set of `d.update(new)` is the union of both key sets. -/
theorem isKey_dictUpdate (d new : List (Str × Str)) (k : Str) :
    isKey k (dictUpdate d new) = true ↔ isKey k d = true ∨ isKey k new = true := by
  induction new generalizing d with
  | nil =>
    simp [dictUpdate, isKey]
  | cons p rest ih =>
    show isKey k (dictUpdate (dictInsert d p.1 p.2) rest) = true ↔ _
    rw [ih, isKey_dictInsert]
    constructor
    · rintro ((hd | hk) | hr)
      · exact Or.inl hd
      · refine Or.inr ?_
        simp [isKey, hk]
      · refine Or.inr ?_
        simp only [isKey, List.any_cons, Bool.or_eq_true] at hr ⊢
        exact Or.inr hr
    · rintro (hd | hpr)
      · exact Or.inl (Or.inl hd)
      · simp only [isKey, List.any_cons, Bool.or_eq_true, decide_eq_true_eq] at hpr
        rcases hpr with hk | hr
        · exact Or.inl (Or.inr hk.symm)
        · exact Or.inr hr

/-- Bumping the mention counter only ever adds the `mention_count` key. -/
theorem isKey_bumpMention (props : List (Str × Str)) (k : Str) :
    isKey k (bumpMention props) = true ↔
      isKey k props = true ∨ k = mentionKey := by
  unfold bumpMention
  split
  · exact isKey_dictInsert props k mentionKey _
  · split
    · exact isKey_dictInsert props k mentionKey _
    · exact isKey_dictInsert props k mentionKey _

/-- The id of a node is untouched when another extraction of it is merged
in. -/
theorem mergeNodeInto_id (n new : KGNodeRec) : (mergeNodeInto n new).id = n.id :=
  rfl

/-- Merging into an existing edge keeps its identity key. -/
theorem mergeEdgeInto_key (e new : KGEdgeRec) :
    edgeKey (mergeEdgeInto e new) = edgeKey e :=
  rfl

/-- A concrete node used to exercise the double-extraction scenario. -/
def demoNode : KGNodeRec :=
  ⟨("n1").toList, ("Node One").toList, ("Concept").toList, [], []⟩

/-- C7: knowledge-graph merging is idempotent on identity keys.  Starting
from collections with distinct keys, merging any batch keeps node ids and
edge keys distinct; a batch node whose id is already known (pre-existing or
added earlier in the same batch) ends up in exactly one collection entry;
merging into an existing node unions its source URLs and property keys (plus
the `mention_count` counter); and extracting the same node id twice yields a
single node whose `mention_count` is `"2"`. -/
theorem kg_merge_idempotent
    (nodes batch : List KGNodeRec) (edges ebatch : List KGEdgeRec)
    (hn : (nodes.map (fun n => n.id)).Nodup)
    (he : (edges.map edgeKey).Nodup) :
    (((mergeNodes nodes batch).map (fun n => n.id)).Nodup ∧
      ∀ b ∈ batch,
        ((mergeNodes nodes batch).map (fun n => n.id)).countP
          (fun k => k = b.id) = 1) ∧
    (((mergeEdges edges ebatch).map edgeKey).Nodup ∧
      ∀ b ∈ ebatch,
        ((mergeEdges edges ebatch).map edgeKey).countP
          (fun k => k = edgeKey b) = 1) ∧
    (∀ n new : KGNodeRec, ∀ u,
      u ∈ (mergeNodeInto n new).source_urls ↔
        u ∈ n.source_urls ∨ u ∈ new.source_urls) ∧
    (∀ n new : KGNodeRec, ∀ k,
      isKey k (mergeNodeInto n new).properties = true ↔
        isKey k n.properties = true ∨ isKey k new.properties = true ∨
          k = mentionKey) ∧
    mergeNodes (mergeNodes [] [demoNode]) [demoNode] =
      [{ demoNode with properties := [(mentionKey, ("2").toList)] }] := by
  have hupd : ∀ x y : KGNodeRec, (mergeNodeInto x y).id = x.id := mergeNodeInto_id
  have hfresh : ∀ x : KGNodeRec, (freshNode x).id = x.id := fun _ => rfl
  have heupd : ∀ x y : KGEdgeRec, edgeKey (mergeEdgeInto x y) = edgeKey x :=
    mergeEdgeInto_key
  have hefresh : ∀ x : KGEdgeRec, edgeKey x = edgeKey x := fun _ => rfl
  refine ⟨⟨?_, ?_⟩, ⟨?_, ?_⟩, ?_, ?_, ?_⟩
  · exact keyedMerge_nodup _ _ _ hupd hfresh nodes batch hn
  · intro b hb
    exact keyedMerge_count_eq_one _ _ _ hupd hfresh nodes batch hn b hb
  · exact keyedMerge_nodup _ _ _ heupd hefresh edges ebatch he
  · intro b hb
    exact keyedMerge_count_eq_one _ _ _ heupd hefresh edges ebatch he b hb
  · intro n new u
    show u ∈ urlUnion n.source_urls new.source_urls ↔ _
    simp [urlUnion]
  · intro n new k
    show isKey k (bumpMention (dictUpdate n.properties new.properties)) = true ↔ _
    rw [isKey_bumpMention, isKey_dictUpdate]
    tauto
  · decide

/-- Concrete instance of the merge-idempotence theorem: merging the same
single-node batch twice into empty collections. -/
theorem kg_merge_idempotent_witness :
    (((mergeNodes (mergeNodes [] [demoNode]) [demoNode]).map
        (fun n => n.id)).Nodup ∧
      ∀ b ∈ [demoNode],
        ((mergeNodes (mergeNodes [] [demoNode]) [demoNode]).map
          (fun n => n.id)).countP (fun k => k = b.id) = 1) ∧
    (((mergeEdges [] []).map edgeKey).Nodup ∧
      ∀ b ∈ ([] : List KGEdgeRec),
        ((mergeEdges [] []).map edgeKey).countP (fun k => k = edgeKey b) = 1) ∧
    (∀ n new : KGNodeRec, ∀ u,
      u ∈ (mergeNodeInto n new).source_urls ↔
        u ∈ n.source_urls ∨ u ∈ new.source_urls) ∧
    (∀ n new : KGNodeRec, ∀ k,
      isKey k (mergeNodeInto n new).properties = true ↔
        isKey k n.properties = true ∨ isKey k new.properties = true ∨
          k = mentionKey) ∧
    mergeNodes (mergeNodes [] [demoNode]) [demoNode] =
      [{ demoNode with properties := [(mentionKey, ("2").toList)] }] :=
  kg_merge_idempotent (mergeNodes [] [demoNode]) [demoNode] [] []
    (by decide) (by decide)

/-! ## Source records and URL deduplication

`state.py` defines `Source` as a title/link pair and `SearchResult` as a
title/link/snippet triple.  `execution.py` appends a selected result's
source to `sources_gathered` only when its link is not yet recorded;
`reporting.py` collects every section's sources into the final numbered
list with the same link-based guard. -/

/-- Embeds `state.py` lines 9-11, the `Source` TypedDict. -/
structure SourceRec where
  title : Str
  link : Str
deriving DecidableEq

/-- Embeds `state.py` lines 4-7, the `SearchResult` TypedDict. -/
structure SearchResultRec where
  title : Str
  link : Str
  snippet : Str
deriving DecidableEq

/-- Embeds `state.py` lines 35-40, the `SectionPlan` TypedDict: one section of the
research plan with its working status, summary and sources. -/
structure SectionPlanRec where
  title : Str
  description : Str
  status : Str
  summary : Str
  sources : List SourceRec
deriving DecidableEq

/-- The shared append-unless-link-present fold of `execution.py`
lines 131-133 and `reporting.py` lines 22-24. -/
def dedupAppendFold {β : Type} (linkOf : β → Str) (toSrc : β → SourceRec)
    (acc : List SourceRec) (items : List β) : List SourceRec :=
  items.foldl
    (fun a b =>
      if linkOf b ∈ a.map (fun s => s.link) then a else a ++ [toSrc b])
    acc

/-- Embeds `core/execution.py` lines 131-133 (`summarize_sources` epilogue): record
each selected result's title/link unless the link is already gathered. -/
def gatherSources (gathered : List SourceRec) (selected : List SearchResultRec) :
    List SourceRec :=
  dedupAppendFold (fun r => r.link) (fun r => ⟨r.title, r.link⟩) gathered selected

/-- Embeds `core/reporting.py` lines 16-24 (`finalize_report` preamble): collect all
sections' sources into the report-wide numbered list, skipping links already
collected. -/
def collectReportSources (plan : List SectionPlanRec) : List SourceRec :=
  plan.foldl (fun acc sec => dedupAppendFold (fun s => s.link) (fun s => s) acc sec.sources) []

section DedupLemmas

variable {β : Type} (linkOf : β → Str) (toSrc : β → SourceRec)

/-- Links already gathered survive the fold. -/
theorem dedupAppendFold_link_subset
    (acc : List SourceRec) (items : List β) (u : Str)
    (hu : u ∈ acc.map (fun s => s.link)) :
    u ∈ (dedupAppendFold linkOf toSrc acc items).map (fun s => s.link) := by
  induction items generalizing acc with
  | nil => exact hu
  | cons b rest ih =>
    show u ∈ (dedupAppendFold linkOf toSrc _ rest).map (fun s => s.link)
    refine ih _ ?_
    by_cases hb : linkOf b ∈ acc.map (fun s => s.link)
    · simpa [hb] using hu
    · simp only [hb, if_false, List.map_append]
      exact List.mem_append_left _ hu

/-- Every processed item's link is present after the fold. -/
theorem dedupAppendFold_link_mem
    (hlink : ∀ b, (toSrc b).link = linkOf b)
    (acc : List SourceRec) (items : List β) (b : β) (hb : b ∈ items) :
    linkOf b ∈ (dedupAppendFold linkOf toSrc acc items).map (fun s => s.link) := by
  induction items generalizing acc with
  | nil => exact absurd hb (List.not_mem_nil b)
  | cons a rest ih =>
    rcases List.mem_cons.mp hb with hba | hbr
    · subst hba
      refine dedupAppendFold_link_subset linkOf toSrc _ rest _ ?_
      beta_reduce
      by_cases hin : linkOf b ∈ acc.map (fun s => s.link)
      · rw [if_pos hin]
        exact hin
      · rw [if_neg hin, List.map_append]
        refine List.mem_append_right _ ?_
        simp [hlink b]
    · exact ih _ hbr

/-- The fold never introduces a duplicate link. -/
theorem dedupAppendFold_nodup
    (hlink : ∀ b, (toSrc b).link = linkOf b)
    (acc : List SourceRec) (items : List β)
    (hnd : (acc.map (fun s => s.link)).Nodup) :
    ((dedupAppendFold linkOf toSrc acc items).map (fun s => s.link)).Nodup := by
  induction items generalizing acc with
  | nil => exact hnd
  | cons b rest ih =>
    refine ih _ ?_
    by_cases hb : linkOf b ∈ acc.map (fun s => s.link)
    · simpa [hb] using hnd
    · simp only [hb, if_false, List.map_append, hlink]
      simp only [List.map_cons, List.map_nil]
      exact List.Nodup.append hnd (List.nodup_singleton _)
        (List.disjoint_singleton.mpr (by simpa [hlink] using hb))

end DedupLemmas

/-- Links in the partially built report source list survive the remaining
sections. -/
theorem collectFold_link_subset (acc : List SourceRec)
    (plan : List SectionPlanRec) (u : Str)
    (hu : u ∈ acc.map (fun s => s.link)) :
    u ∈ ((plan.foldl
        (fun acc sec =>
          dedupAppendFold (fun s => s.link) (fun s => s) acc sec.sources)
        acc).map (fun s => s.link)) := by
  induction plan generalizing acc with
  | nil => exact hu
  | cons sec rest ih =>
    exact ih _ (dedupAppendFold_link_subset _ _ acc sec.sources u hu)

/-- C9: sources are deduplicated by URL.  Starting from a `sources_gathered`
list without duplicate links, summarizing any selection keeps links
duplicate-free while recording every selected link; and the final report's
collected source list holds each section source's URL exactly once. -/
theorem sources_deduplicated_by_url
    (gathered : List SourceRec) (selected : List SearchResultRec)
    (plan : List SectionPlanRec)
    (hg : (gathered.map (fun s => s.link)).Nodup) :
    ((gatherSources gathered selected).map (fun s => s.link)).Nodup ∧
    (∀ r ∈ selected,
      r.link ∈ (gatherSources gathered selected).map (fun s => s.link)) ∧
    ((collectReportSources plan).map (fun s => s.link)).Nodup ∧
    (∀ sec ∈ plan, ∀ s ∈ sec.sources,
      ((collectReportSources plan).map (fun t => t.link)).countP
        (fun u => u = s.link) = 1) := by
  have hlink1 : ∀ r : SearchResultRec,
      ((fun r : SearchResultRec => (⟨r.title, r.link⟩ : SourceRec)) r).link =
        r.link := fun _ => rfl
  have hlink2 : ∀ s : SourceRec, ((fun s : SourceRec => s) s).link = s.link :=
    fun _ => rfl
  have hplan_nodup : ∀ (plan : List SectionPlanRec) (acc : List SourceRec),
      (acc.map (fun s => s.link)).Nodup →
      (((plan.foldl
          (fun acc sec =>
            dedupAppendFold (fun s => s.link) (fun s => s) acc sec.sources)
          acc)).map (fun s => s.link)).Nodup := by
    intro plan
    induction plan with
    | nil => intro acc h; exact h
    | cons sec rest ih =>
      intro acc h
      exact ih _ (dedupAppendFold_nodup _ _ hlink2 acc sec.sources h)
  have hplan_mem : ∀ (plan : List SectionPlanRec) (acc : List SourceRec),
      ∀ sec ∈ plan, ∀ s ∈ sec.sources,
      s.link ∈ ((plan.foldl
          (fun acc sec =>
            dedupAppendFold (fun s => s.link) (fun s => s) acc sec.sources)
          acc)).map (fun t => t.link) := by
    intro plan
    induction plan with
    | nil => intro acc sec hsec; exact absurd hsec (List.not_mem_nil sec)
    | cons sec0 rest ih =>
      intro acc sec hsec s hs
      rcases List.mem_cons.mp hsec with hseq | hsr
      · subst hseq
        exact collectFold_link_subset _ rest _
          (dedupAppendFold_link_mem _ _ hlink2 acc sec.sources s hs)
      · exact ih _ sec hsr s hs
  refine ⟨?_, ?_, ?_, ?_⟩
  · exact dedupAppendFold_nodup _ _ hlink1 gathered selected hg
  · intro r hr
    exact dedupAppendFold_link_mem _ _ hlink1 gathered selected r hr
  · exact hplan_nodup plan [] (by simp)
  · intro sec hsec s hs
    exact countP_eq_one_of_nodup_mem _ _
      (hplan_nodup plan [] (by simp))
      (hplan_mem plan [] sec hsec s hs)

/-- Concrete instance of URL deduplication: the same link appearing in two
selected results and in two sections is recorded once. -/
theorem sources_deduplicated_by_url_witness :
    ((gatherSources [] [⟨("A").toList, ("u1").toList, []⟩,
        ⟨("B").toList, ("u1").toList, []⟩]).map (fun s => s.link)).Nodup ∧
    (∀ r ∈ [(⟨("A").toList, ("u1").toList, []⟩ : SearchResultRec),
        ⟨("B").toList, ("u1").toList, []⟩],
      r.link ∈ (gatherSources [] [⟨("A").toList, ("u1").toList, []⟩,
        ⟨("B").toList, ("u1").toList, []⟩]).map (fun s => s.link)) ∧
    ((collectReportSources []).map (fun s => s.link)).Nodup ∧
    (∀ sec ∈ ([] : List SectionPlanRec), ∀ s ∈ sec.sources,
      ((collectReportSources []).map (fun t => t.link)).countP
        (fun u => u = s.link) = 1) :=
  sources_deduplicated_by_url []
    [⟨("A").toList, ("u1").toList, []⟩, ⟨("B").toList, ("u1").toList, []⟩]
    [] (by decide)

/-! ## Planner

`core/planning.py` lines 18-57, `ResearchPlanner.generate_plan`: ask the LLM
facade for a structured plan; convert each planned section to a pending
section dict; on an exception from the request fall back to the single
"General Research" section. -/

/-- Embeds `state.py` lines 14-16, the pydantic `Section` model of a planned
section. -/
structure SectionRec where
  title : Str
  description : Str
deriving DecidableEq

/-- Embeds `state.py` lines 18-19, the pydantic `ResearchPlanModel`. -/
structure ResearchPlanModelRec where
  sections : List SectionRec
deriving DecidableEq

/-- Embeds `planning.py` lines 37-57.  The awaited `generate_structured` outcome is
an explicit argument: `Except.error` is the `except` branch (the facade
raising, e.g. on a transport failure), `Except.ok` a returned plan model
(which the facade's recovery chain can produce with zero sections instead of
raising).  The language argument only selects the prompt text and cannot
affect the returned structure, so it is omitted. -/
def generate_plan (topic : Str) (llm : Except Unit ResearchPlanModelRec) :
    List SectionPlanRec :=
  match llm with
  | .ok plan =>
    plan.sections.map (fun sec =>
      { title := sec.title, description := sec.description,
        status := ("pending").toList, summary := [], sources := [] })
  | .error _ =>
    [{ title := ("General Research").toList,
       description := ("Comprehensive research on ").toList ++ topic,
       status := ("pending").toList, summary := [], sources := [] }]

/-- C8 counterexample: when the structured request does not raise but
returns a plan model with zero sections — exactly what the recovery chain's
minimal instance looks like on malformed output — `generate_plan` returns
the empty section list, so the pipeline can proceed with zero sections. -/
theorem generate_plan_empty_counterexample :
    generate_plan (("AI agents").toList) (.ok ⟨[]⟩) = [] :=
  rfl

/-- C8 (amended): `generate_plan` returns exactly the single pending
"General Research" fallback section when the structured request raises; when
the request returns a plan model it returns one pending section per planned
section — non-empty exactly when the model's section list is non-empty (the
recovery chain's empty minimal instance therefore yields zero sections
without triggering the fallback). -/
theorem generate_plan_fallback (topic : Str) (plan : ResearchPlanModelRec) :
    generate_plan topic (.error ()) =
      [{ title := ("General Research").toList,
         description := ("Comprehensive research on ").toList ++ topic,
         status := ("pending").toList, summary := [], sources := [] }] ∧
    (generate_plan topic (.ok plan)).length = plan.sections.length ∧
    (∀ s ∈ generate_plan topic (.ok plan), s.status = ("pending").toList) ∧
    (generate_plan topic (.ok plan) = [] ↔ plan.sections = []) := by
  refine ⟨rfl, ?_, ?_, ?_⟩
  · simp [generate_plan]
  · intro s hs
    simp only [generate_plan, List.mem_map] at hs
    obtain ⟨sec, _, hsec⟩ := hs
    rw [← hsec]
  · simp [generate_plan]

/-- Concrete instance of the planner fallback behavior. -/
theorem generate_plan_fallback_witness :
    generate_plan (("electric cars").toList) (.error ()) =
      [{ title := ("General Research").toList,
         description :=
           ("Comprehensive research on ").toList ++ ("electric cars").toList,
         status := ("pending").toList, summary := [], sources := [] }] ∧
    (generate_plan (("electric cars").toList)
        (.ok ⟨[⟨("Intro").toList, ("Basics").toList⟩]⟩)).length =
      ([⟨("Intro").toList, ("Basics").toList⟩] : List SectionRec).length ∧
    (∀ s ∈ generate_plan (("electric cars").toList)
        (.ok ⟨[⟨("Intro").toList, ("Basics").toList⟩]⟩),
      s.status = ("pending").toList) ∧
    (generate_plan (("electric cars").toList)
        (.ok ⟨[⟨("Intro").toList, ("Basics").toList⟩]⟩) = [] ↔
      ([⟨("Intro").toList, ("Basics").toList⟩] : List SectionRec) = []) :=
  generate_plan_fallback (("electric cars").toList)
    ⟨[⟨("Intro").toList, ("Basics").toList⟩]⟩

/-! ## Session state and its serialization

`core/state.py` lines 42-114: `ResearchState` carries the whole session;
`to_dict` serializes every field under a fixed key, `from_dict` rebuilds a
state reading each key back (with the constructor defaults for absent
keys).  The dictionary is embedded as an association list over a sum of the
value types the fields hold. -/

/-- The value types appearing in a serialized `ResearchState` dictionary. -/
inductive StateVal where
  | vStr (s : Str)
  | vOptStr (s : Option Str)
  | vOptResults (r : Option (List SearchResultRec))
  | vSources (s : List SourceRec)
  | vNat (n : Nat)
  | vInt (i : Int)
  | vBool (b : Bool)
  | vOptStrMap (m : Option (List (Str × Str)))
  | vNodes (ns : List KGNodeRec)
  | vEdges (es : List KGEdgeRec)
  | vDictList (ds : List (List (Str × Str)))
  | vPlan (p : List SectionPlanRec)
deriving DecidableEq

/-- Embeds `state.py` lines 42-65, the `ResearchState` session record (the fields
`to_dict` serializes). -/
structure ResearchState where
  research_topic : Str
  language : Str
  initial_query : Option Str
  proposed_query : Option Str
  current_query : Option Str
  search_results : Option (List SearchResultRec)
  new_information : Option Str
  sources_gathered : List SourceRec
  accumulated_summary : Str
  completed_loops : Nat
  final_report : Option Str
  pending_source_selection : Bool
  fetched_content : Option (List (Str × Str))
  knowledge_graph_nodes : List KGNodeRec
  knowledge_graph_edges : List KGEdgeRec
  follow_up_log : List (List (Str × Str))
  research_plan : List SectionPlanRec
  current_section_index : Int
  plan_approved : Bool
  is_interrupted : Bool
deriving DecidableEq

/-- Embeds `state.py` lines 67-90, `ResearchState.to_dict`. -/
def to_dict (s : ResearchState) : List (Str × StateVal) :=
  [ (("research_topic").toList, .vStr s.research_topic),
    (("language").toList, .vStr s.language),
    (("initial_query").toList, .vOptStr s.initial_query),
    (("proposed_query").toList, .vOptStr s.proposed_query),
    (("current_query").toList, .vOptStr s.current_query),
    (("search_results").toList, .vOptResults s.search_results),
    (("new_information").toList, .vOptStr s.new_information),
    (("sources_gathered").toList, .vSources s.sources_gathered),
    (("accumulated_summary").toList, .vStr s.accumulated_summary),
    (("completed_loops").toList, .vNat s.completed_loops),
    (("final_report").toList, .vOptStr s.final_report),
    (("pending_source_selection").toList, .vBool s.pending_source_selection),
    (("fetched_content").toList, .vOptStrMap s.fetched_content),
    (("knowledge_graph_nodes").toList, .vNodes s.knowledge_graph_nodes),
    (("knowledge_graph_edges").toList, .vEdges s.knowledge_graph_edges),
    (("follow_up_log").toList, .vDictList s.follow_up_log),
    (("research_plan").toList, .vPlan s.research_plan),
    (("current_section_index").toList, .vInt s.current_section_index),
    (("plan_approved").toList, .vBool s.plan_approved),
    (("is_interrupted").toList, .vBool s.is_interrupted) ]

/-- Python `data.get(k)` on the serialized dictionary. -/
def dGet (data : List (Str × StateVal)) (k : Str) : Option StateVal :=
  (data.find? (fun p => p.1 = k)).map (fun p => p.2)

/-- Read a plain string field with its constructor default (an absent key or
a value of the wrong shape falls back to the default, as `data.get` with a
default does — a wrong shape cannot arise from `to_dict`). -/
def getStrD (data : List (Str × StateVal)) (k d : Str) : Str :=
  match dGet data k with
  | some (.vStr s) => s
  | _ => d

/-- Read an optional string field (default `None`). -/
def getOptStr (data : List (Str × StateVal)) (k : Str) : Option Str :=
  match dGet data k with
  | some (.vOptStr s) => s
  | _ => none

/-- Embeds `state.py` lines 92-114, `ResearchState.from_dict`.  The mandatory
`data["research_topic"]` access raises `KeyError` on an absent key, embedded
as `none`; every other field is read with `data.get` and the constructor
default. -/
def from_dict (data : List (Str × StateVal)) : Option ResearchState :=
  match dGet data (("research_topic").toList) with
  | some (.vStr topic) =>
    some
      { research_topic := topic,
        language := getStrD data (("language").toList) (("Japanese").toList),
        initial_query := getOptStr data (("initial_query").toList),
        proposed_query := getOptStr data (("proposed_query").toList),
        current_query := getOptStr data (("current_query").toList),
        search_results :=
          match dGet data (("search_results").toList) with
          | some (.vOptResults r) => r
          | _ => none,
        new_information := getOptStr data (("new_information").toList),
        sources_gathered :=
          match dGet data (("sources_gathered").toList) with
          | some (.vSources s) => s
          | _ => [],
        accumulated_summary :=
          getStrD data (("accumulated_summary").toList) [],
        completed_loops :=
          match dGet data (("completed_loops").toList) with
          | some (.vNat n) => n
          | _ => 0,
        final_report := getOptStr data (("final_report").toList),
        pending_source_selection :=
          match dGet data (("pending_source_selection").toList) with
          | some (.vBool b) => b
          | _ => false,
        fetched_content :=
          match dGet data (("fetched_content").toList) with
          | some (.vOptStrMap m) => m
          | _ => none,
        knowledge_graph_nodes :=
          match dGet data (("knowledge_graph_nodes").toList) with
          | some (.vNodes ns) => ns
          | _ => [],
        knowledge_graph_edges :=
          match dGet data (("knowledge_graph_edges").toList) with
          | some (.vEdges es) => es
          | _ => [],
        follow_up_log :=
          match dGet data (("follow_up_log").toList) with
          | some (.vDictList ds) => ds
          | _ => [],
        research_plan :=
          match dGet data (("research_plan").toList) with
          | some (.vPlan p) => p
          | _ => [],
        current_section_index :=
          match dGet data (("current_section_index").toList) with
          | some (.vInt i) => i
          | _ => -1,
        plan_approved :=
          match dGet data (("plan_approved").toList) with
          | some (.vBool b) => b
          | _ => false,
        is_interrupted :=
          match dGet data (("is_interrupted").toList) with
          | some (.vBool b) => b
          | _ => false }
  | _ => none

/-- C10: state serialization round-trips exactly — deserializing the
serialized dictionary of any `ResearchState` reproduces the state on every
serialized field, so pause/resume across process boundaries loses no
session state. -/
theorem state_roundtrip (s : ResearchState) :
    from_dict (to_dict s) = some s :=
  rfl

/-! ## LLM call facade: rate gate

Modelled from the spec: the asynchronous `LLMClient` with rate limiting is
not part of the source tree (the `tools/llm_client.py` in the tree is an
older synchronous version without it; only the tests and the
`LLM_RATE_LIMIT_RPM` configuration refer to it).  Per the spec, a single
shared `last_call_time` guarded by a mutex: before each call wait until
`now - last_call_time >= 60/RPM`, then stamp `last_call_time = now`, which
serializes all calls at a fixed minimum spacing with no burst credit.
(Note: `tests/test_llm_client_rate_limit.py` instead expects a burst
capacity of 10, contradicting this fixed-spacing model.) -/

/-- Modelled from the spec: the execution time of one call through the rate
gate — a call arriving at `arrival` with spacing `interval = 60/RPM` waits
until `interval` has passed since `last`, so it runs at
`max arrival (last + interval)` and that time becomes the new
`last_call_time`. -/
def rateGateCall (interval last arrival : ℚ) : ℚ :=
  max arrival (last + interval)

/-- Modelled from the spec: the execution times of a sequence of calls
through the gate, threading the stamped `last_call_time`. -/
def rateGateTimes (interval : ℚ) : ℚ → List ℚ → List ℚ
  | _, [] => []
  | last, a :: rest =>
    rateGateCall interval last a ::
      rateGateTimes interval (rateGateCall interval last a) rest

/-- Consecutive gated calls are spaced by at least `interval`. -/
theorem rateGateTimes_chain (interval last : ℚ) (arrivals : List ℚ) :
    List.Chain' (fun t u => t + interval ≤ u)
      (rateGateTimes interval last arrivals) := by
  induction arrivals generalizing last with
  | nil => exact List.chain'_nil
  | cons a rest ih =>
    cases rest with
    | nil => simp [rateGateTimes]
    | cons b tail =>
      refine List.chain'_cons.mpr ⟨?_, ih _⟩
      exact le_max_right _ _

/-- C2: the rate gate enforces the fixed minimum spacing `60/RPM` between
any two LLM calls — consecutive execution times differ by at least
`interval`, any two by at least `interval` when `interval ≥ 0` — and with
`RPM = 120` (`interval = 1/2` s) the third of three sequential calls runs at
least `1.0` s after the first, so three calls take at least one second of
wall time. -/
theorem llm_rate_gate_spacing (interval last : ℚ) (arrivals : List ℚ)
    (hi : 0 ≤ interval) :
    List.Chain' (fun t u => t + interval ≤ u)
      (rateGateTimes interval last arrivals) ∧
    List.Pairwise (fun t u => t + interval ≤ u)
      (rateGateTimes interval last arrivals) ∧
    (∀ a₁ a₂ a₃ : ℚ,
      ∃ t₁ t₂ t₃, rateGateTimes (1/2 : ℚ) last [a₁, a₂, a₃] = [t₁, t₂, t₃] ∧
        t₁ + 1 ≤ t₃) := by
  refine ⟨rateGateTimes_chain interval last arrivals, ?_, ?_⟩
  · haveI : IsTrans ℚ (fun t u => t + interval ≤ u) :=
      ⟨fun a b c hab hbc => by
        have h1 : a + interval ≤ b := hab
        have h2 : b + interval ≤ c := hbc
        show a + interval ≤ c
        linarith⟩
    exact List.chain'_iff_pairwise.mp (rateGateTimes_chain interval last arrivals)
  · intro a₁ a₂ a₃
    refine ⟨_, _, _, rfl, ?_⟩
    have h2 : rateGateCall (1/2) last a₁ + 1/2 ≤
        rateGateCall (1/2) (rateGateCall (1/2) last a₁) a₂ :=
      le_max_right _ _
    have h3 : rateGateCall (1/2) (rateGateCall (1/2) last a₁) a₂ + 1/2 ≤
        rateGateCall (1/2) (rateGateCall (1/2) (rateGateCall (1/2) last a₁) a₂) a₃ :=
      le_max_right _ _
    linarith

/-- Concrete instance of the rate-gate spacing at `interval = 1/2`,
`last = 0`, three immediate arrivals. -/
theorem llm_rate_gate_spacing_witness :
    List.Chain' (fun t u => t + (1/2 : ℚ) ≤ u)
      (rateGateTimes (1/2) 0 [0, 0, 0]) ∧
    List.Pairwise (fun t u => t + (1/2 : ℚ) ≤ u)
      (rateGateTimes (1/2) 0 [0, 0, 0]) ∧
    (∀ a₁ a₂ a₃ : ℚ,
      ∃ t₁ t₂ t₃, rateGateTimes (1/2 : ℚ) 0 [a₁, a₂, a₃] = [t₁, t₂, t₃] ∧
        t₁ + 1 ≤ t₃) :=
  llm_rate_gate_spacing (1/2) 0 [0, 0, 0] (by norm_num)

/-! ## Orchestrator: the section-driven run loop

Modelled from the spec (§4.6): the asynchronous section-driven
`ResearchLoop.run_loop` is not part of the source tree (the
`core/research_loop.py` in the tree is the older single-query driver without
sections or interruption checks; the section driver survives only through
its sub-components `planning.py`/`execution.py`/`reflection.py`/
`reporting.py` and through `tests/test_interruption.py`).  The driver below
follows the spec's steps: build a plan when none exists, walk one section at
a time through query/search/summarize/reflect, pause (return `none`) when
interactive input is required, honor `is_interrupted` at every checkpoint by
jumping to the Reporter, and always hand the Reporter's string back. -/

/-- The external collaborators of one run, as response oracles: the
structured-plan outcome, and the LLM/search answers keyed by the query or
section title that prompted them. -/
structure Collaborators where
  planResult : Except Unit ResearchPlanModelRec
  queryFor : Str → Str
  searchFor : Str → List SearchResultRec
  summaryFor : Str → Str
  reflectFor : Str → Str
  reportText : Str

/-- Number an already deduplicated source list as `reporting.py` line 26
does: `[n] title (link)` joined by newlines. -/
def numberSources (srcs : List SourceRec) : Str :=
  (List.intercalate (("\n").toList)
    ((srcs.enum.map (fun p =>
      ("[").toList ++ (toString (p.1 + 1)).toList ++ ("] ").toList ++
        p.2.title ++ (" (").toList ++ p.2.link ++ (")").toList))))

/-- Embeds `core/reporting.py` lines 13-70, `finalize_report`: collect and number
the deduplicated sources, ask the LLM for the report body (the oracle's
`reportText`), and append the `## Sources` listing when any source exists. -/
def finalize_report (c : Collaborators) (plan : List SectionPlanRec) : Str :=
  let src_list := numberSources (collectReportSources plan)
  c.reportText ++
    (if src_list = [] then [] else ("\n\n## Sources\n").toList ++ src_list)

/-- Finalization: store the Reporter's string in the state and return it
(the run's non-`None` result). -/
def finalizeState (c : Collaborators) (s : ResearchState) :
    ResearchState × Option Str :=
  let r := finalize_report c s.research_plan
  ({ s with final_report := some r }, some r)

/-- Modelled from the spec (step 1): when no plan exists, build one with the
Planner and activate the first section. -/
def ensurePlan (c : Collaborators) (s : ResearchState) : ResearchState :=
  if s.research_plan = [] then
    { s with
      research_plan := generate_plan s.research_topic c.planResult,
      current_section_index := 0 }
  else s

/-- Modelled from the spec (steps 2-5): the automatic-mode research loop of
one section — search the active query, fold the summary and the
deduplicated sources into the state, bump the loop counter, then
reflect-and-decide; continue with the proposed query while the decision is
`CONTINUE` with a query and the loop budget remains. -/
def runSectionAuto (c : Collaborators) (maxLoops : Nat) :
    Nat → Str → ResearchState → ResearchState
  | 0, _, s => s
  | fuel + 1, q, s =>
    let s1 := { s with
      sources_gathered := gatherSources s.sources_gathered (c.searchFor q),
      accumulated_summary := s.accumulated_summary ++ c.summaryFor q,
      completed_loops := s.completed_loops + 1 }
    match reflect_and_decide (c.reflectFor q) with
    | (eval, some nextq) =>
      if s1.completed_loops < maxLoops ∧ eval = ("CONTINUE").toList then
        runSectionAuto c maxLoops fuel nextq s1
      else s1
    | (_, none) => s1

/-- Modelled from the spec (step 6): transition the active section to
`completed`, snapshot its summary and sources, reset the per-section scratch
fields and activate the next section. -/
def completeSection (s : ResearchState) : ResearchState :=
  let i := s.current_section_index.toNat
  match s.research_plan[i]? with
  | some sec =>
    { s with
      research_plan := s.research_plan.set i
        { sec with
          status := ("completed").toList,
          summary := s.accumulated_summary,
          sources := s.sources_gathered },
      current_section_index := s.current_section_index + 1,
      accumulated_summary := [],
      sources_gathered := [],
      completed_loops := 0,
      current_query := none,
      proposed_query := none }
  | none => { s with current_section_index := s.current_section_index + 1 }

/-- Modelled from the spec (§4.6): the top-level driver.  Each iteration is
a checkpoint: an interruption jumps straight to the Reporter; exhausted
sections finalize; interactive mode returns the "paused" marker (`none`) for
the caller to supply approvals; otherwise the active section is researched
and completed.  The fuel only bounds the recursion (one unit per section);
running out of it also finalizes. -/
def runSections (c : Collaborators) (interactive : Bool) (maxLoops : Nat) :
    Nat → ResearchState → ResearchState × Option Str
  | 0, s => finalizeState c s
  | fuel + 1, s =>
    if s.is_interrupted then finalizeState c s
    else if s.research_plan.length ≤ s.current_section_index.toNat then
      finalizeState c s
    else if interactive then (s, none)
    else
      match s.research_plan[s.current_section_index.toNat]? with
      | none => finalizeState c s
      | some sec =>
        runSections c interactive maxLoops fuel
          (completeSection
            (runSectionAuto c maxLoops maxLoops (c.queryFor sec.title) s))

/-- Modelled from the spec: `run()` — ensure a plan exists, then drive the
sections; the result is `none` only when paused awaiting interactive
input. -/
def runLoop (c : Collaborators) (interactive : Bool) (maxLoops fuel : Nat)
    (s : ResearchState) : ResearchState × Option Str :=
  runSections c interactive maxLoops fuel (ensurePlan c s)

/-- Every section the Planner emits starts out `pending` (shared helper for
the fallback and interruption theorems). -/
theorem generate_plan_all_pending (topic : Str)
    (llm : Except Unit ResearchPlanModelRec) :
    ∀ sec ∈ generate_plan topic llm, sec.status = ("pending").toList := by
  intro sec hsec
  cases llm with
  | ok plan =>
    simp only [generate_plan, List.mem_map] at hsec
    obtain ⟨s, _, hs⟩ := hsec
    rw [← hs]
  | error e =>
    simp only [generate_plan, List.mem_singleton] at hsec
    rw [hsec]

/-- The number of completed sections of a state. -/
def countCompleted (s : ResearchState) : Nat :=
  (s.research_plan.filter (fun sec => sec.status = ("completed").toList)).length

/-- C3: if `is_interrupted` is set at a checkpoint — here: before the first
section of this invocation is even attempted — the run does not advance any
section (statuses are exactly those after plan creation, and no section
gets completed), yet it still finalizes: it returns a non-`None` report
which is also stored in the state, never an unhandled abort or a `None`
result. -/
theorem interruption_yields_report (c : Collaborators) (interactive : Bool)
    (maxLoops fuel : Nat) (s : ResearchState)
    (h : s.is_interrupted = true) :
    ∃ r s', runLoop c interactive maxLoops fuel s = (s', some r) ∧
      s'.final_report = some r ∧
      s'.research_plan.map (fun sec => sec.status) =
        (ensurePlan c s).research_plan.map (fun sec => sec.status) ∧
      countCompleted s' = countCompleted s := by
  have hflag : (ensurePlan c s).is_interrupted = true := by
    unfold ensurePlan
    by_cases hp : s.research_plan = []
    · simpa [hp] using h
    · simpa [hp] using h
  have hcount : countCompleted (ensurePlan c s) = countCompleted s := by
    unfold ensurePlan countCompleted
    by_cases hp : s.research_plan = []
    · simp only [hp, if_pos rfl]
      rw [List.filter_eq_nil_iff.mpr ?_]
      · simp [hp]
      · intro sec hsec
        have := generate_plan_all_pending s.research_topic c.planResult sec hsec
        simp [this]
    · simp [hp]
  have hfin : ∀ s₀ : ResearchState,
      runSections c interactive maxLoops fuel s₀ = finalizeState c s₀ ∨
      (s₀.is_interrupted = true →
        runSections c interactive maxLoops fuel s₀ = finalizeState c s₀) := by
    intro s₀
    cases fuel with
    | zero => exact Or.inl rfl
    | succ n =>
      refine Or.inr (fun hi => ?_)
      simp [runSections, hi]
  refine ⟨finalize_report c (ensurePlan c s).research_plan,
    { ensurePlan c s with
        final_report := some (finalize_report c (ensurePlan c s).research_plan) },
    ?_, rfl, by simp, by simpa [countCompleted] using hcount⟩
  unfold runLoop
  rcases hfin (ensurePlan c s) with heq | himp
  · rw [heq]
    rfl
  · rw [himp hflag]
    rfl

/-- Concrete instance of the interruption theorem: a fresh interrupted state
with no plan still produces a stored, non-`None` report. -/
theorem interruption_yields_report_witness :
    ∃ r s',
      runLoop
        { planResult := .ok ⟨[⟨("S1").toList, ("D1").toList⟩]⟩,
          queryFor := fun _ => ("q").toList,
          searchFor := fun _ => [],
          summaryFor := fun _ => ("sum").toList,
          reflectFor := fun _ => [],
          reportText := ("report body").toList }
        false 2 5
        { research_topic := ("Test Topic").toList, language := ("English").toList,
          initial_query := none, proposed_query := none, current_query := none,
          search_results := none, new_information := none, sources_gathered := [],
          accumulated_summary := [], completed_loops := 0, final_report := none,
          pending_source_selection := false, fetched_content := none,
          knowledge_graph_nodes := [], knowledge_graph_edges := [],
          follow_up_log := [], research_plan := [], current_section_index := -1,
          plan_approved := false, is_interrupted := true } = (s', some r) ∧
      s'.final_report = some r ∧
      s'.research_plan.map (fun sec => sec.status) =
        (ensurePlan
          { planResult := .ok ⟨[⟨("S1").toList, ("D1").toList⟩]⟩,
            queryFor := fun _ => ("q").toList,
            searchFor := fun _ => [],
            summaryFor := fun _ => ("sum").toList,
            reflectFor := fun _ => [],
            reportText := ("report body").toList }
          { research_topic := ("Test Topic").toList, language := ("English").toList,
            initial_query := none, proposed_query := none, current_query := none,
            search_results := none, new_information := none, sources_gathered := [],
            accumulated_summary := [], completed_loops := 0, final_report := none,
            pending_source_selection := false, fetched_content := none,
            knowledge_graph_nodes := [], knowledge_graph_edges := [],
            follow_up_log := [], research_plan := [], current_section_index := -1,
            plan_approved := false,
            is_interrupted := true }).research_plan.map (fun sec => sec.status) ∧
      countCompleted s' = countCompleted
        { research_topic := ("Test Topic").toList, language := ("English").toList,
          initial_query := none, proposed_query := none, current_query := none,
          search_results := none, new_information := none, sources_gathered := [],
          accumulated_summary := [], completed_loops := 0, final_report := none,
          pending_source_selection := false, fetched_content := none,
          knowledge_graph_nodes := [], knowledge_graph_edges := [],
          follow_up_log := [], research_plan := [], current_section_index := -1,
          plan_approved := false, is_interrupted := true } :=
  interruption_yields_report
    { planResult := .ok ⟨[⟨("S1").toList, ("D1").toList⟩]⟩,
      queryFor := fun _ => ("q").toList,
      searchFor := fun _ => [],
      summaryFor := fun _ => ("sum").toList,
      reflectFor := fun _ => [],
      reportText := ("report body").toList }
    false 2 5
    { research_topic := ("Test Topic").toList, language := ("English").toList,
      initial_query := none, proposed_query := none, current_query := none,
      search_results := none, new_information := none, sources_gathered := [],
      accumulated_summary := [], completed_loops := 0, final_report := none,
      pending_source_selection := false, fetched_content := none,
      knowledge_graph_nodes := [], knowledge_graph_edges := [],
      follow_up_log := [], research_plan := [], current_section_index := -1,
      plan_approved := false, is_interrupted := true }
    rfl

/-! ## LLM call facade: structured-output recovery chain

Modelled from the spec: `generate_structured` and its `_robust_extract`
recovery chain are not part of the source tree (the `tools/llm_client.py` in
the tree is an older synchronous version without them; the chain survives
through `tests/test_robustness_deep.py`, `tests/test_llm_client*.py` and its
callers in `core/`).  Per the spec the chain is: (1) natively constrained
output; (2) parse the free-text response against the schema; (3) on parse
failure, scan the raw text for the longest balanced brace/bracket
substrings, JSON-decode each independently and merge parsed object keys
(list-shaped matches go to the first list-typed schema field); (4) if the
merged object still fails validation, keep only the individually valid
elements of each list field; (5) if nothing decodes, return the schema's
minimal instance with every list field empty.  The schema instantiated here
is `KnowledgeGraphModel`, the two-list-field schema the tests feed it. -/

/-- A JSON value as `json.loads` produces it.  Numbers are restricted to
integers (the knowledge-graph schema carries no numeric fields; a fraction
or exponent in garbage input simply fails the parse, which is the branch the
chain handles anyway). -/
inductive Json where
  | null
  | bool (b : Bool)
  | num (n : Int)
  | str (s : Str)
  | arr (xs : List Json)
  | obj (kvs : List (Str × Json))

/-- The four JSON whitespace characters. -/
def jsonWs (c : Char) : Bool :=
  c = ' ' ∨ c = '\t' ∨ c = '\n' ∨ c = '\r'

/-- Skip leading JSON whitespace. -/
def skipWs (l : List Char) : List Char :=
  l.dropWhile jsonWs

/-- Single-character escapes inside JSON strings (`\uXXXX` escapes are out
of scope: the recovery chain treats string payloads opaquely). -/
def unescape (c : Char) : Char :=
  if c = 'n' then '\n' else if c = 't' then '\t' else if c = 'r' then '\r' else c

/-- Parse the remainder of a JSON string after its opening quote. -/
def parseJString : Nat → List Char → Option (Str × List Char)
  | 0, _ => none
  | _ + 1, [] => none
  | fuel + 1, c :: rest =>
    if c = '"' then some ([], rest)
    else if c = '\\' then
      match rest with
      | [] => none
      | e :: rest2 => (parseJString fuel rest2).map (fun p => (unescape e :: p.1, p.2))
    else (parseJString fuel rest).map (fun p => (c :: p.1, p.2))

/-- Decimal digits to a number. -/
def digitsToNat (ds : List Char) : Nat :=
  ds.foldl (fun n c => n * 10 + (c.toNat - 48)) 0

/-- Parse an integral JSON number (optional minus sign and digits). -/
def parseNumber (l : List Char) : Option (Json × List Char) :=
  match l with
  | '-' :: rest =>
    if rest.takeWhile Char.isDigit = [] then none
    else some (Json.num (-(digitsToNat (rest.takeWhile Char.isDigit) : Int)),
      rest.drop (rest.takeWhile Char.isDigit).length)
  | _ =>
    if l.takeWhile Char.isDigit = [] then none
    else some (Json.num (digitsToNat (l.takeWhile Char.isDigit)),
      l.drop (l.takeWhile Char.isDigit).length)

mutual

/-- Recursive-descent JSON value parser (fuel-driven; the callers pass one
more unit of fuel than the input length, which the grammar cannot
exhaust). -/
def parseValue : Nat → List Char → Option (Json × List Char)
  | 0, _ => none
  | fuel + 1, l =>
    match skipWs l with
    | [] => none
    | c :: rest =>
      if c = '{' then
        (parseMembers fuel rest).map (fun p => (Json.obj p.1, p.2))
      else if c = '[' then
        (parseElems fuel rest).map (fun p => (Json.arr p.1, p.2))
      else if c = '"' then
        (parseJString fuel rest).map (fun p => (Json.str p.1, p.2))
      else if c = 't' then
        if (("rue").toList).isPrefixOf rest then some (Json.bool true, rest.drop 3)
        else none
      else if c = 'f' then
        if (("alse").toList).isPrefixOf rest then some (Json.bool false, rest.drop 4)
        else none
      else if c = 'n' then
        if (("ull").toList).isPrefixOf rest then some (Json.null, rest.drop 3)
        else none
      else if c = '-' ∨ c.isDigit then parseNumber (c :: rest)
      else none

/-- Parse the members of a JSON object after its opening brace. -/
def parseMembers : Nat → List Char → Option (List (Str × Json) × List Char)
  | 0, _ => none
  | fuel + 1, l =>
    match skipWs l with
    | [] => none
    | c :: rest =>
      if c = '}' then some ([], rest)
      else if c = '"' then
        match parseJString fuel rest with
        | none => none
        | some (k, r1) =>
          match skipWs r1 with
          | ':' :: r2 =>
            match parseValue fuel r2 with
            | none => none
            | some (v, r3) =>
              match skipWs r3 with
              | ',' :: r4 =>
                (parseMembers fuel r4).map (fun p => ((k, v) :: p.1, p.2))
              | '}' :: r4 => some ([(k, v)], r4)
              | _ => none
          | _ => none
      else none

/-- Parse the elements of a JSON array after its opening bracket. -/
def parseElems : Nat → List Char → Option (List Json × List Char)
  | 0, _ => none
  | fuel + 1, l =>
    match skipWs l with
    | [] => none
    | c :: rest =>
      if c = ']' then some ([], rest)
      else
        match parseValue fuel (c :: rest) with
        | none => none
        | some (v, r1) =>
          match skipWs r1 with
          | ',' :: r2 => (parseElems fuel r2).map (fun p => (v :: p.1, p.2))
          | ']' :: r2 => some ([v], r2)
          | _ => none

end

/-- Python `json.loads`: parse one value and require only whitespace
after it. -/
def json_loads (l : List Char) : Option Json :=
  (parseValue (l.length + 1) l).bind
    (fun p => if skipWs p.2 = [] then some p.1 else none)

/-- Key lookup in a parsed JSON object. -/
def jLookup (kvs : List (Str × Json)) (k : Str) : Option Json :=
  (kvs.find? (fun p => p.1 = k)).map (fun p => p.2)

/-- A JSON string payload. -/
def asStr : Json → Option Str
  | .str s => some s
  | _ => none

/-- An optional object of string values (the `properties` field; an absent
key is the pydantic default `{}`). -/
def asStrMap : Option Json → Option (List (Str × Str))
  | none => some []
  | some (.obj kvs) =>
    kvs.foldr
      (fun kv acc =>
        match asStr kv.2, acc with
        | some v, some m => some ((kv.1, v) :: m)
        | _, _ => none)
      (some [])
  | some _ => none

/-- An optional array of strings (the `source_urls` field; an absent key is
the pydantic default `[]`). -/
def asStrList : Option Json → Option (List Str)
  | none => some []
  | some (.arr xs) =>
    xs.foldr
      (fun x acc =>
        match asStr x, acc with
        | some s, some l => some (s :: l)
        | _, _ => none)
      (some [])
  | some _ => none

/-- Pydantic validation of one `KGNode`: mandatory string `id`, `label`,
`type`; optional `properties` map and `source_urls` list. -/
def validateNode (j : Json) : Option KGNodeRec :=
  match j with
  | .obj kvs =>
    match (jLookup kvs (("id").toList)).bind asStr,
        (jLookup kvs (("label").toList)).bind asStr,
        (jLookup kvs (("type").toList)).bind asStr,
        asStrMap (jLookup kvs (("properties").toList)),
        asStrList (jLookup kvs (("source_urls").toList)) with
    | some i, some lb, some t, some props, some urls =>
      some ⟨i, lb, t, props, urls⟩
    | _, _, _, _, _ => none
  | _ => none

/-- Pydantic validation of one `KGEdge`: mandatory string `source`,
`target`, `label`; optional `properties` and `source_urls`. -/
def validateEdge (j : Json) : Option KGEdgeRec :=
  match j with
  | .obj kvs =>
    match (jLookup kvs (("source").toList)).bind asStr,
        (jLookup kvs (("target").toList)).bind asStr,
        (jLookup kvs (("label").toList)).bind asStr,
        asStrMap (jLookup kvs (("properties").toList)),
        asStrList (jLookup kvs (("source_urls").toList)) with
    | some s, some t, some lb, some props, some urls =>
      some ⟨s, t, lb, props, urls⟩
    | _, _, _, _, _ => none
  | _ => none

/-- Strict validation of a homogeneous list field: every element must
validate. -/
def allValidate {β : Type} (f : Json → Option β) : List Json → Option (List β)
  | [] => some []
  | j :: rest =>
    match f j, allValidate f rest with
    | some b, some bs => some (b :: bs)
    | _, _ => none

/-- Full pydantic validation of `KnowledgeGraphModel`: a JSON object whose
mandatory `nodes` and `edges` keys hold arrays of valid elements. -/
def validateKG (j : Json) : Option KnowledgeGraphModelRec :=
  match j with
  | .obj kvs =>
    match jLookup kvs (("nodes").toList), jLookup kvs (("edges").toList) with
    | some (.arr ns), some (.arr es) =>
      match allValidate validateNode ns, allValidate validateEdge es with
      | some nodes, some edges => some ⟨nodes, edges⟩
      | _, _ => none
    | _, _ => none
  | _ => none

/-- Stage 4, field-level recovery: for each list-typed schema field keep
only the individually valid elements, dropping the rest. -/
def recoverKG (j : Json) : KnowledgeGraphModelRec :=
  match j with
  | .obj kvs =>
    { nodes :=
        match jLookup kvs (("nodes").toList) with
        | some (.arr ns) => ns.filterMap validateNode
        | _ => [],
      edges :=
        match jLookup kvs (("edges").toList) with
        | some (.arr es) => es.filterMap validateEdge
        | _ => [] }
  | _ => ⟨[], []⟩

/-- Take the longest balanced bracket span starting at the current opening
bracket (depth counting on the one bracket pair; brackets inside string
literals are not special-cased, a simplification of the scan). -/
def takeBalancedGo (o cl : Char) : Nat → Nat → List Char → List Char →
    Option (List Char × List Char)
  | 0, _, _, _ => none
  | _ + 1, _, _, [] => none
  | fuel + 1, depth, acc, c :: rest =>
    if c = cl ∧ depth = 1 then some (acc ++ [c], rest)
    else
      takeBalancedGo o cl fuel
        (if c = o then depth + 1 else if c = cl then depth - 1 else depth)
        (acc ++ [c]) rest

/-- Stage 3 scan: walk the raw text; at each opening brace/bracket take the
balanced span, JSON-decode it, and continue after it (after the single
character when no balanced span closes). -/
def scanCandidates : Nat → List Char → List Json
  | 0, _ => []
  | _ + 1, [] => []
  | fuel + 1, c :: rest =>
    if c = '{' ∨ c = '[' then
      match takeBalancedGo c (if c = '{' then '}' else ']')
          (rest.length + 1) 0 [] (c :: rest) with
      | some (span, remainder) =>
        (match json_loads span with
         | some j => [j]
         | none => []) ++ scanCandidates fuel remainder
      | none => scanCandidates fuel rest
    else scanCandidates fuel rest

/-- Merge one decoded candidate into the accumulated object: object keys are
merged (first occurrence wins), a list-shaped candidate is assigned to the
first list-typed schema field (`nodes`, then `edges`) not yet present. -/
def mergeCandidate (acc : List (Str × Json)) (j : Json) : List (Str × Json) :=
  match j with
  | .obj kvs =>
    kvs.foldl
      (fun a kv => if (a.any (fun p => p.1 = kv.1)) then a else a ++ [kv])
      acc
  | .arr xs =>
    if acc.any (fun p => p.1 = ("nodes").toList) then
      if acc.any (fun p => p.1 = ("edges").toList) then acc
      else acc ++ [((("edges").toList), Json.arr xs)]
    else acc ++ [((("nodes").toList), Json.arr xs)]
  | _ => acc

/-- Modelled from the spec: `_robust_extract` stages (2)-(5) on the raw
free-text response — parse and validate the whole text; else decode the
balanced substrings, merge them and validate; else field-level recovery;
else the minimal instance with both list fields empty. -/
def robust_extract (raw : Str) : KnowledgeGraphModelRec :=
  match (json_loads raw).bind validateKG with
  | some m => m
  | none =>
    match scanCandidates (raw.length + 1) raw with
    | [] => ⟨[], []⟩
    | cands =>
      let merged := Json.obj (cands.foldl mergeCandidate [])
      match validateKG merged with
      | some m => m
      | none => recoverKG merged

/-- Modelled from the spec: `generate_structured` — stage (1) is the
provider's natively constrained output; every failure of it falls through
to `_robust_extract` on the free-text response. -/
def generate_structured (native : Option KnowledgeGraphModelRec) (raw : Str) :
    KnowledgeGraphModelRec :=
  match native with
  | some m => m
  | none => robust_extract raw

/-- A successful number parse always yields a `num` value. -/
theorem parseNumber_shape (l : List Char) (j : Json) (r : List Char)
    (h : parseNumber l = some (j, r)) : ∃ n, j = Json.num n := by
  unfold parseNumber at h
  split at h
  · split at h
    · cases h
    · simp only [Option.some.injEq, Prod.mk.injEq] at h
      exact ⟨_, h.1.symm⟩
  · split at h
    · cases h
    · simp only [Option.some.injEq, Prod.mk.injEq] at h
      exact ⟨_, h.1.symm⟩

/-- A parse producing a top-level JSON object can only have entered the
brace branch of the dispatcher, so the input contains a `{`. -/
theorem parseValue_obj_mem (fuel : Nat) (l : List Char)
    (kvs : List (Str × Json)) (rest : List Char)
    (h : parseValue fuel l = some (Json.obj kvs, rest)) :
    '{' ∈ l := by
  cases fuel with
  | zero => cases h
  | succ n =>
    cases hsw : skipWs l with
    | nil =>
      simp only [parseValue, hsw] at h
      exact Option.noConfusion h
    | cons c rest' =>
      simp only [parseValue, hsw] at h
      by_cases h1 : c = '{'
      · subst h1
        have hm : '{' ∈ skipWs l := by
          rw [hsw]
          exact List.mem_cons_self _ _
        exact (List.dropWhile_sublist _).subset hm
      · rw [if_neg h1] at h
        by_cases h2 : c = '['
        · rw [if_pos h2] at h
          cases hpe : parseElems n rest' with
          | none => rw [hpe] at h; cases h
          | some p =>
            rw [hpe] at h
            simp only [Option.map_some', Option.some.injEq, Prod.mk.injEq] at h
            cases h.1
        · rw [if_neg h2] at h
          by_cases h3 : c = '"'
          · rw [if_pos h3] at h
            cases hps : parseJString n rest' with
            | none => rw [hps] at h; cases h
            | some p =>
              rw [hps] at h
              simp only [Option.map_some', Option.some.injEq, Prod.mk.injEq] at h
              cases h.1
          · rw [if_neg h3] at h
            by_cases h4 : c = 't'
            · rw [if_pos h4] at h
              split at h
              · simp only [Option.some.injEq, Prod.mk.injEq] at h
                cases h.1
              · cases h
            · rw [if_neg h4] at h
              by_cases h5 : c = 'f'
              · rw [if_pos h5] at h
                split at h
                · simp only [Option.some.injEq, Prod.mk.injEq] at h
                  cases h.1
                · cases h
              · rw [if_neg h5] at h
                by_cases h6 : c = 'n'
                · rw [if_pos h6] at h
                  split at h
                  · simp only [Option.some.injEq, Prod.mk.injEq] at h
                    cases h.1
                  · cases h
                · rw [if_neg h6] at h
                  by_cases h7 : c = '-' ∨ c.isDigit
                  · rw [if_pos h7] at h
                    obtain ⟨m, hm⟩ := parseNumber_shape _ _ _ h
                    cases hm
                  · rw [if_neg h7] at h
                    cases h

/-- Lemma: `json.loads` can only produce a top-level object from text containing a
`{`. -/
theorem json_loads_obj_mem (l : List Char) (kvs : List (Str × Json))
    (h : json_loads l = some (Json.obj kvs)) : '{' ∈ l := by
  unfold json_loads at h
  obtain ⟨p, hp, hif⟩ := Option.bind_eq_some.mp h
  by_cases hsw : skipWs p.2 = []
  · rw [if_pos hsw] at hif
    have hj := Option.some.inj hif
    refine parseValue_obj_mem (l.length + 1) l kvs p.2 ?_
    rw [hp, ← hj]
  · rw [if_neg hsw] at hif
    exact Option.noConfusion hif

/-- Full-schema validation only succeeds on a JSON object. -/
theorem validateKG_obj (j : Json) (m : KnowledgeGraphModelRec)
    (h : validateKG j = some m) : ∃ kvs, j = Json.obj kvs := by
  cases j with
  | obj kvs => exact ⟨kvs, rfl⟩
  | null => exact Option.noConfusion h
  | bool b => exact Option.noConfusion h
  | num n => exact Option.noConfusion h
  | str s => exact Option.noConfusion h
  | arr xs => exact Option.noConfusion h

/-- The balanced-substring scan finds no candidate in text without an
opening brace or bracket. -/
theorem scanCandidates_nil (fuel : Nat) (l : List Char)
    (hb : '{' ∉ l) (hk : '[' ∉ l) :
    scanCandidates fuel l = [] := by
  induction fuel generalizing l with
  | zero => rfl
  | succ n ih =>
    cases l with
    | nil => rfl
    | cons c rest =>
      have hc : ¬ (c = '{' ∨ c = '[') := by
        rintro (rfl | rfl)
        · exact hb (List.mem_cons_self _ _)
        · exact hk (List.mem_cons_self _ _)
      rw [scanCandidates, if_neg hc]
      exact ih rest (fun hm => hb (List.mem_cons_of_mem _ hm))
        (fun hm => hk (List.mem_cons_of_mem _ hm))

/-- C1: `generate_structured` never raises on malformed provider output — it
is total by construction, tries the native result first and otherwise
degrades through `_robust_extract`; and when nothing decodes (a free-text
response with no JSON object or array at all, such as the concrete
non-JSON sentence below), it returns the schema's minimal instance with
both list fields (`nodes` and `edges`) empty. -/
theorem structured_output_never_raises (raw : Str)
    (hb : '{' ∉ raw) (hk : '[' ∉ raw) :
    (∀ m, generate_structured (some m) raw = m) ∧
    generate_structured none raw = robust_extract raw ∧
    robust_extract raw = ⟨[], []⟩ ∧
    robust_extract (("Wait, I do not know the answer. It is sunny.").toList) =
      ⟨[], []⟩ := by
  refine ⟨fun m => rfl, rfl, ?_, ?_⟩
  · unfold robust_extract
    cases hjv : (json_loads raw).bind validateKG with
    | some m =>
      exfalso
      obtain ⟨j, hj, hv⟩ := Option.bind_eq_some.mp hjv
      obtain ⟨kvs, rfl⟩ := validateKG_obj j m hv
      exact hb (json_loads_obj_mem raw kvs hj)
    | none =>
      rw [scanCandidates_nil _ _ hb hk]
  · decide

/-- Concrete instance of the recovery chain on the non-JSON sentence the
repository's own robustness test feeds it. -/
theorem structured_output_never_raises_witness :
    (∀ m, generate_structured (some m)
      (("Wait, I do not know the answer. It is sunny.").toList) = m) ∧
    generate_structured none
        (("Wait, I do not know the answer. It is sunny.").toList) =
      robust_extract (("Wait, I do not know the answer. It is sunny.").toList) ∧
    robust_extract (("Wait, I do not know the answer. It is sunny.").toList) =
      ⟨[], []⟩ ∧
    robust_extract (("Wait, I do not know the answer. It is sunny.").toList) =
      ⟨[], []⟩ :=
  structured_output_never_raises
    (("Wait, I do not know the answer. It is sunny.").toList)
    (by decide) (by decide)

end DeepResearch
